import Mathlib

/-
Verification of the AthenaPools-Scheduler job/task domain model.

The rendered pages keep page-local hardcoded sample arrays and simulate
persistence (`console.log` / `alert` in `handleSubmit`), so the repository
operations of the specification (§4.1 Job Repository, §4.2 Task Repository)
have no implementation under `src/`.  The entity shapes, the seed data, the
find-by-id lookups and the completion toggle are taken directly from the
source; the repository operations themselves are modelled from the spec, as
marked on each definition.
-/

namespace AthenaPools

/-- Task record, from `src/unnamed/part_001` lines 12-19 (`interface Task`):
id, title, description, completed, dueDate (ISO string), notes. -/
structure Task where
  id : String
  title : String
  description : String
  completed : Bool
  dueDate : String
  notes : String
deriving Repr, DecidableEq

/-- Job record with nested task records, from `src/unnamed/part_001`
lines 23-31 (`interface Job`). -/
structure Job where
  id : String
  jobName : String
  clientName : String
  status : String
  gateCode : String
  notes : String
  tasks : List Task
deriving Repr, DecidableEq

/-- Job record as held by the edit-job page and the jobs list page, whose
`tasks` field is a list of plain title strings: `src/unnamed/part_002`
lines 19-27 and `src/todo-app/src/app/jobs/page.tsx` lines 10-53. -/
structure JobS where
  id : String
  jobName : String
  clientName : String
  status : String
  gateCode : String
  notes : String
  tasks : List String
deriving Repr, DecidableEq

/-- Modelled from the spec: error kinds of §7 for the in-memory store,
`NotFound` and `ValidationError` (`Unavailable` only concerns a backing
store that is out of scope).  No repository implementation exists under
`src/`; the pages redirect to /404 or log to the console instead. -/
inductive RepoError where
  | NotFound
  | ValidationError
deriving Repr, DecidableEq

/-- The fixed status enumeration, from the `statusColors` keys in
`src/todo-app/src/app/jobs/page.tsx` lines 57-62. -/
def validStatuses : List String :=
  ["Scheduled", "In Progress", "Completed", "Overdue"]

/-- The job lookup of the pages: `allJobs.find((j) => j.id === id)`
(`src/unnamed/part_002` line 102, `src/unnamed/part_001` lines 131 and 425).
JavaScript `Array.find` returns the first match, i.e. `List.find?`. -/
def findJob (store : List Job) (id : String) : Option Job :=
  store.find? (fun j => j.id == id)

/-- The same lookup over the string-task job shape of the edit-job page
(`src/unnamed/part_002` line 102). -/
def findJobS (store : List JobS) (id : String) : Option JobS :=
  store.find? (fun j => j.id == id)

/-- The task lookup within a found job:
`foundJob.tasks.find((t) => t.id === taskId)` (`src/unnamed/part_001`
line 136). -/
def findTask (tasks : List Task) (taskId : String) : Option Task :=
  tasks.find? (fun t => t.id == taskId)

/-- The completion toggle of `handleTaskCompletionChange`
(`src/unnamed/part_001` lines 449-453): map over the tasks, flipping
`completed` on the task whose id matches and leaving the rest unchanged. -/
def toggleTask (tasks : List Task) (taskId : String) : List Task :=
  tasks.map (fun t =>
    if t.id == taskId then { t with completed := !t.completed } else t)

/-- Modelled from the spec: the partial job update of §4.1 — any subset of
jobName, clientName, status, gateCode, notes (no update operation exists
under `src/`; `handleSubmit` in `src/unnamed/part_002` only logs). -/
structure JobPatch where
  jobName : Option String := none
  clientName : Option String := none
  status : Option String := none
  gateCode : Option String := none
  notes : Option String := none
deriving Repr, DecidableEq

/-- Modelled from the spec: applying a job patch field-wise (§4.1);
absent fields keep their prior values. -/
def applyJobPatch (j : Job) (p : JobPatch) : Job :=
  { j with
    jobName := p.jobName.getD j.jobName
    clientName := p.clientName.getD j.clientName
    status := p.status.getD j.status
    gateCode := p.gateCode.getD j.gateCode
    notes := p.notes.getD j.notes }

/-- Modelled from the spec: §4.1 validation — `ValidationError` if `jobName`
or `clientName` would become empty, or `status` is outside the fixed
enumeration. -/
def jobPatchValid (p : JobPatch) : Bool :=
  (match p.jobName with | some s => s != "" | none => true) &&
  (match p.clientName with | some s => s != "" | none => true) &&
  (match p.status with | some s => validStatuses.contains s | none => true)

/-- Modelled from the spec: `updateJob` of §4.1, absent under `src/`.
Returns the result together with the (possibly unchanged) store, so that
the §7 atomicity policy — a rejected update leaves prior state untouched —
is visible in the type.  The lookup is the source's find-by-id. -/
def updateJob (store : List Job) (id : String) (p : JobPatch) :
    Except RepoError Job × List Job :=
  match findJob store id with
  | none => (Except.error RepoError.NotFound, store)
  | some j =>
    if jobPatchValid p then
      let j' := applyJobPatch j p
      (Except.ok j', store.map (fun x => if x.id == id then j' else x))
    else (Except.error RepoError.ValidationError, store)

/-- Modelled from the spec: `getJob` of §4.1 — the matching job or
`NotFound`.  The lookup is the source's `find((j) => j.id === id)`. -/
def getJob (store : List Job) (id : String) : Except RepoError Job :=
  match findJob store id with
  | none => Except.error RepoError.NotFound
  | some j => Except.ok j

/-- Modelled from the spec: `listJobs` of §4.1 — the ordered sequence of
all jobs, no errors. -/
def listJobs (store : List Job) : List Job :=
  store

/-- Modelled from the spec: the partial task update of §4.2 — any subset of
title, description, completed, dueDate, notes. -/
structure TaskPatch where
  title : Option String := none
  description : Option String := none
  completed : Option Bool := none
  dueDate : Option String := none
  notes : Option String := none
deriving Repr, DecidableEq

/-- Modelled from the spec: applying a task patch field-wise (§4.2);
absent fields keep their prior values. -/
def applyTaskPatch (t : Task) (p : TaskPatch) : Task :=
  { t with
    title := p.title.getD t.title
    description := p.description.getD t.description
    completed := p.completed.getD t.completed
    dueDate := p.dueDate.getD t.dueDate
    notes := p.notes.getD t.notes }

/-- Days of each month of the Gregorian calendar, supporting the spec's
requirement (§3) that `dueDate` parse as a valid calendar date. -/
def daysInMonth (y m : Nat) : Nat :=
  if m == 2 then
    if y % 4 == 0 && (y % 100 != 0 || y % 400 == 0) then 29 else 28
  else if m == 4 || m == 6 || m == 9 || m == 11 then 30
  else 31

/-- Modelled from the spec: validity of an ISO `YYYY-MM-DD` date string
(§3 Task invariant). -/
def isValidDate (s : String) : Bool :=
  match s.splitOn "-" with
  | [y, m, d] =>
    y.length == 4 && m.length == 2 && d.length == 2 &&
    y.toList.all Char.isDigit && m.toList.all Char.isDigit &&
    d.toList.all Char.isDigit &&
    (match y.toNat?, m.toNat?, d.toNat? with
     | some yn, some mn, some dn =>
       decide (1 ≤ mn) && decide (mn ≤ 12) && decide (1 ≤ dn) &&
       decide (dn ≤ daysInMonth yn mn)
     | _, _, _ => false)
  | _ => false

/-- Modelled from the spec: §4.2 validation — `ValidationError` if `title`
would become empty or `dueDate` is not a valid date. -/
def taskPatchValid (p : TaskPatch) : Bool :=
  (match p.title with | some s => s != "" | none => true) &&
  (match p.dueDate with | some s => isValidDate s | none => true)

/-- Modelled from the spec: the per-job effect of a task patch — patch the
matching task of the matching job, leave everything else unchanged. -/
def updateTaskIn (jobId taskId : String) (p : TaskPatch) (x : Job) : Job :=
  if x.id == jobId then
    { x with tasks := x.tasks.map (fun u =>
        if u.id == taskId then applyTaskPatch u p else u) }
  else x

/-- Modelled from the spec: `updateTask` of §4.2, absent under `src/`
(`handleSubmit` in `src/unnamed/part_001` only logs).  Same `NotFound`
conditions as `getTask`; returns the updated task and the new store, or
the error and the untouched store. -/
def updateTask (store : List Job) (jobId taskId : String) (p : TaskPatch) :
    Except RepoError Task × List Job :=
  match findJob store jobId with
  | none => (Except.error RepoError.NotFound, store)
  | some j =>
    match findTask j.tasks taskId with
    | none => (Except.error RepoError.NotFound, store)
    | some t =>
      if taskPatchValid p then
        (Except.ok (applyTaskPatch t p),
         store.map (updateTaskIn jobId taskId p))
      else (Except.error RepoError.ValidationError, store)

/-- Modelled from the spec: `getTask` of §4.2 — the matching task, or
`NotFound` if either the job or the task within it does not exist.  Both
lookups are the source's find-by-id (`src/unnamed/part_001` lines 131-136). -/
def getTask (store : List Job) (jobId taskId : String) :
    Except RepoError Task :=
  match findJob store jobId with
  | none => Except.error RepoError.NotFound
  | some j =>
    match findTask j.tasks taskId with
    | none => Except.error RepoError.NotFound
    | some t => Except.ok t

/-- Modelled from the spec: `listTasks` of §4.2 — the job's ordered task
sequence, or `NotFound` for an unknown job id. -/
def listTasks (store : List Job) (jobId : String) :
    Except RepoError (List Task) :=
  match findJob store jobId with
  | none => Except.error RepoError.NotFound
  | some j => Except.ok j.tasks

/-- The job-level effect of the completion toggle: apply the source's
`handleTaskCompletionChange` map (`src/unnamed/part_001` lines 449-453) to
the job whose id matches, leave other jobs unchanged. -/
def toggleJob (jobId taskId : String) (x : Job) : Job :=
  if x.id == jobId then { x with tasks := toggleTask x.tasks taskId } else x

/-- Modelled from the spec: `toggleCompletion` of §4.2 — same error
conditions as `updateTask` minus validation.  Its update core is the
source's `handleTaskCompletionChange` map (`src/unnamed/part_001`
lines 449-453), applied to the job found by the source's lookup. -/
def toggleCompletion (store : List Job) (jobId taskId : String) :
    Except RepoError Task × List Job :=
  match findJob store jobId with
  | none => (Except.error RepoError.NotFound, store)
  | some j =>
    match findTask j.tasks taskId with
    | none => (Except.error RepoError.NotFound, store)
    | some t =>
      (Except.ok { t with completed := !t.completed },
       store.map (toggleJob jobId taskId))

/-- The `initialJobs` sample array shared by the task pages
(`src/unnamed/part_001` lines 37-106 and 334-405, and
`src/todo-app/src/app/jobs/[id]/tasks/[taskID]/edit/page.tsx` lines 32-100):
jobs "1" and "2" with nested task records; no job "3". -/
def initialJobs : List Job :=
  [ { id := "1", jobName := "Lot 3", clientName := "Cindy McKinny",
      status := "In Progress", gateCode := "4729", notes := "",
      tasks :=
        [ { id := "1-1", title := "Excavation",
            description := "Test pH, chlorine, and alkalinity levels",
            completed := true, dueDate := "2025-06-04", notes := "" },
          { id := "1-2", title := "Steel", description := "Jaime Steel",
            completed := false, dueDate := "2025-06-16", notes := "" },
          { id := "1-3", title := "Plumbing",
            description := "Abraham Plumbing",
            completed := false, dueDate := "2025-06-21", notes := "" } ] },
    { id := "2", jobName := "Sage Thrasher", clientName := "X",
      status := "Scheduled", gateCode := "", notes := "",
      tasks :=
        [ { id := "2-1", title := "Demo",
            description := "demo pre-existing pool",
            completed := false, dueDate := "2025-06-20",
            notes := "Check soil/ground conditions" },
          { id := "2-2", title := "Steel", description := "Haime Steel",
            completed := false, dueDate := "2025-07-01", notes := "" },
          { id := "2-3", title := "Plumbing",
            description := "Abraham Plumbing",
            completed := false, dueDate := "2025-07-22", notes := "" } ] } ]

/-- The `allJobs` sample array of the edit-job page
(`src/unnamed/part_002` lines 31-74): jobs "1", "2" and "3", tasks as plain
title strings.  The jobs list page (`src/todo-app/src/app/jobs/page.tsx`
lines 10-53) holds the identical three-job array. -/
def allJobs : List JobS :=
  [ { id := "1", jobName := "Lot 3", clientName := "Cindy McKinny",
      status := "In Progress", gateCode := "4729", notes := "",
      tasks := ["Excavation", "Steel", "Plumbing"] },
    { id := "2", jobName := "Sage Thrasher", clientName := "X",
      status := "Scheduled", gateCode := "", notes := "",
      tasks := ["Demo", "Steel", "Plumbing"] },
    { id := "3", jobName := "Emergency Repair - Wilson Pool",
      clientName := "Mike Wilson", status := "Overdue", gateCode := "",
      notes := "",
      tasks := ["Replace pump", "Check electrical connections",
                "Test system"] } ]

/-- Job "3" of the edit-job page's seed data (`src/unnamed/part_002`
lines 61-73), carried over to the repository job shape.  That page stores
only task title strings, so the task-record list is left empty here; the
job-level fields are the source's. -/
def job3 : Job :=
  { id := "3", jobName := "Emergency Repair - Wilson Pool",
    clientName := "Mike Wilson", status := "Overdue", gateCode := "",
    notes := "", tasks := [] }

/-- A repository store seeded with a job of id "3" for the spec scenario
`updateJob("3", {status:"Completed"})` (§8): jobs "1" and "2" from the
source's `initialJobs` plus `job3` from the edit-job page's seed. -/
def seedJobs3 : List Job :=
  initialJobs ++ [job3]

/-- The §8 scenario store: a single job
`{id:"1", jobName:"Lot 3", status:"In Progress", tasks:[{id:"1-1", ...
completed:true}, {id:"1-2", ... completed:false}]}`, its remaining fields
filled from the source's matching job "1" (`src/unnamed/part_001`). -/
def scenarioJobs : List Job :=
  [ { id := "1", jobName := "Lot 3", clientName := "Cindy McKinny",
      status := "In Progress", gateCode := "4729", notes := "",
      tasks :=
        [ { id := "1-1", title := "Excavation",
            description := "Test pH, chlorine, and alkalinity levels",
            completed := true, dueDate := "2025-06-04", notes := "" },
          { id := "1-2", title := "Steel", description := "Jaime Steel",
            completed := false, dueDate := "2025-06-16", notes := "" } ] } ]

/-- Job "1" of the task pages' seed (`src/unnamed/part_001` lines 38-71). -/
def job1 : Job :=
  { id := "1", jobName := "Lot 3", clientName := "Cindy McKinny",
    status := "In Progress", gateCode := "4729", notes := "",
    tasks :=
      [ { id := "1-1", title := "Excavation",
          description := "Test pH, chlorine, and alkalinity levels",
          completed := true, dueDate := "2025-06-04", notes := "" },
        { id := "1-2", title := "Steel", description := "Jaime Steel",
          completed := false, dueDate := "2025-06-16", notes := "" },
        { id := "1-3", title := "Plumbing", description := "Abraham Plumbing",
          completed := false, dueDate := "2025-06-21", notes := "" } ] }

/-- Task "1-2" of job "1" (`src/unnamed/part_001` lines 54-61). -/
def task12 : Task :=
  { id := "1-2", title := "Steel", description := "Jaime Steel",
    completed := false, dueDate := "2025-06-16", notes := "" }

/-- A job found by the store lookup carries the queried id. -/
lemma findJob_id {store : List Job} {id : String} {j : Job}
    (h : findJob store id = some j) : j.id = id := by
  unfold findJob at h
  have hp := List.find?_some h
  simpa only [beq_iff_eq] using hp

/-- A task found by the in-job lookup carries the queried id. -/
lemma findTask_id {tasks : List Task} {taskId : String} {t : Task}
    (h : findTask tasks taskId = some t) : t.id = taskId := by
  unfold findTask at h
  have hp := List.find?_some h
  simpa only [beq_iff_eq] using hp

/-- Searching a mapped list with a predicate the map preserves finds the
image of the original hit. -/
lemma find?_map_pres {α : Type} (g : α → α) (p : α → Bool)
    (hg : ∀ x, p (g x) = p x) (l : List α) :
    (l.map g).find? p = (l.find? p).map g := by
  rw [List.find?_map]
  have hfun : (p ∘ g) = p := funext fun x => hg x
  rw [hfun]

/-- The completion toggle preserves a task's id. -/
lemma toggleTask_mem_id (taskId : String) (t : Task) :
    (if t.id == taskId then { t with completed := !t.completed } else t).id
      = t.id := by
  by_cases h : (t.id == taskId) = true
  · rw [if_pos h]
  · rw [if_neg h]

/-- Toggling the same task twice restores the task list. -/
lemma toggleTask_involutive (tasks : List Task) (taskId : String) :
    toggleTask (toggleTask tasks taskId) taskId = tasks := by
  unfold toggleTask
  rw [List.map_map]
  apply List.map_id''
  intro t
  by_cases h : (t.id == taskId) = true
  · simp only [Function.comp, if_pos h, Bool.not_not]
  · simp only [Function.comp, if_neg h]

/-- The job-level toggle preserves a job's id. -/
lemma toggleJob_id (jobId taskId : String) (x : Job) :
    (toggleJob jobId taskId x).id = x.id := by
  unfold toggleJob
  by_cases h : (x.id == jobId) = true
  · rw [if_pos h]
  · rw [if_neg h]

/-- The job-level toggle is an involution. -/
lemma toggleJob_involutive (jobId taskId : String) (x : Job) :
    toggleJob jobId taskId (toggleJob jobId taskId x) = x := by
  unfold toggleJob
  by_cases h : (x.id == jobId) = true
  · rw [if_pos h]
    rw [if_pos h, toggleTask_involutive]
  · rw [if_neg h, if_neg h]

/-- Reduction equation: `updateJob` on an unknown id. -/
lemma updateJob_eq_none {store : List Job} {id : String} {p : JobPatch}
    (hf : findJob store id = none) :
    updateJob store id p = (Except.error RepoError.NotFound, store) := by
  unfold updateJob
  rw [hf]

/-- Reduction equation: `updateJob` with an invalid patch. -/
lemma updateJob_eq_invalid {store : List Job} {id : String} {p : JobPatch}
    {j : Job} (hf : findJob store id = some j)
    (hv : jobPatchValid p = false) :
    updateJob store id p = (Except.error RepoError.ValidationError, store) := by
  unfold updateJob
  rw [hf, hv]
  rfl

/-- Reduction equation: `updateJob` on a found job with a valid patch. -/
lemma updateJob_eq_valid {store : List Job} {id : String} {p : JobPatch}
    {j : Job} (hf : findJob store id = some j)
    (hv : jobPatchValid p = true) :
    updateJob store id p =
      (Except.ok (applyJobPatch j p),
        store.map (fun x => if x.id == id then applyJobPatch j p else x)) := by
  unfold updateJob
  rw [hf, hv]
  rfl

/-- Reduction equation: `updateTask` on an unknown job id. -/
lemma updateTask_eq_noJob {store : List Job} {jobId taskId : String}
    {p : TaskPatch} (hf : findJob store jobId = none) :
    updateTask store jobId taskId p =
      (Except.error RepoError.NotFound, store) := by
  unfold updateTask
  rw [hf]

/-- Reduction equation: `updateTask` on an unknown task id. -/
lemma updateTask_eq_noTask {store : List Job} {jobId taskId : String}
    {p : TaskPatch} {j : Job} (hf : findJob store jobId = some j)
    (ht : findTask j.tasks taskId = none) :
    updateTask store jobId taskId p =
      (Except.error RepoError.NotFound, store) := by
  unfold updateTask
  rw [hf]
  show (match findTask j.tasks taskId with
    | none => (Except.error RepoError.NotFound, store)
    | some t =>
      if taskPatchValid p then
        (Except.ok (applyTaskPatch t p),
         store.map (updateTaskIn jobId taskId p))
      else (Except.error RepoError.ValidationError, store)) =
    (Except.error RepoError.NotFound, store)
  rw [ht]

/-- Reduction equation: `updateTask` with an invalid patch. -/
lemma updateTask_eq_invalid {store : List Job} {jobId taskId : String}
    {p : TaskPatch} {j : Job} {t : Task} (hf : findJob store jobId = some j)
    (ht : findTask j.tasks taskId = some t)
    (hv : taskPatchValid p = false) :
    updateTask store jobId taskId p =
      (Except.error RepoError.ValidationError, store) := by
  unfold updateTask
  rw [hf]
  show (match findTask j.tasks taskId with
    | none => (Except.error RepoError.NotFound, store)
    | some t =>
      if taskPatchValid p then
        (Except.ok (applyTaskPatch t p),
         store.map (updateTaskIn jobId taskId p))
      else (Except.error RepoError.ValidationError, store)) =
    (Except.error RepoError.ValidationError, store)
  rw [ht, hv]
  rfl

/-- Reduction equation: `updateTask` on a found task with a valid patch. -/
lemma updateTask_eq_valid {store : List Job} {jobId taskId : String}
    {p : TaskPatch} {j : Job} {t : Task} (hf : findJob store jobId = some j)
    (ht : findTask j.tasks taskId = some t)
    (hv : taskPatchValid p = true) :
    updateTask store jobId taskId p =
      (Except.ok (applyTaskPatch t p),
        store.map (updateTaskIn jobId taskId p)) := by
  unfold updateTask
  rw [hf]
  show (match findTask j.tasks taskId with
    | none => (Except.error RepoError.NotFound, store)
    | some t =>
      if taskPatchValid p then
        (Except.ok (applyTaskPatch t p),
         store.map (updateTaskIn jobId taskId p))
      else (Except.error RepoError.ValidationError, store)) =
    (Except.ok (applyTaskPatch t p),
      store.map (updateTaskIn jobId taskId p))
  rw [ht, hv]
  rfl

/-- Reduction equation: `toggleCompletion` on an unknown job id. -/
lemma toggleCompletion_eq_noJob {store : List Job} {jobId taskId : String}
    (hf : findJob store jobId = none) :
    toggleCompletion store jobId taskId =
      (Except.error RepoError.NotFound, store) := by
  unfold toggleCompletion
  rw [hf]

/-- Reduction equation: `toggleCompletion` on an unknown task id. -/
lemma toggleCompletion_eq_noTask {store : List Job} {jobId taskId : String}
    {j : Job} (hf : findJob store jobId = some j)
    (ht : findTask j.tasks taskId = none) :
    toggleCompletion store jobId taskId =
      (Except.error RepoError.NotFound, store) := by
  unfold toggleCompletion
  rw [hf]
  show (match findTask j.tasks taskId with
    | none => (Except.error RepoError.NotFound, store)
    | some t =>
      (Except.ok { t with completed := !t.completed },
       store.map (toggleJob jobId taskId))) =
    (Except.error RepoError.NotFound, store)
  rw [ht]

/-- Reduction equation: `toggleCompletion` on a found task. -/
lemma toggleCompletion_eq_found {store : List Job} {jobId taskId : String}
    {j : Job} {t : Task} (hf : findJob store jobId = some j)
    (ht : findTask j.tasks taskId = some t) :
    toggleCompletion store jobId taskId =
      (Except.ok { t with completed := !t.completed },
        store.map (toggleJob jobId taskId)) := by
  unfold toggleCompletion
  rw [hf]
  show (match findTask j.tasks taskId with
    | none => (Except.error RepoError.NotFound, store)
    | some t =>
      (Except.ok { t with completed := !t.completed },
       store.map (toggleJob jobId taskId))) =
    (Except.ok { t with completed := !t.completed },
      store.map (toggleJob jobId taskId))
  rw [ht]

/-- Reduction equation: `getTask` on a found task. -/
lemma getTask_eq_found {store : List Job} {jobId taskId : String}
    {j : Job} {t : Task} (hf : findJob store jobId = some j)
    (ht : findTask j.tasks taskId = some t) :
    getTask store jobId taskId = Except.ok t := by
  unfold getTask
  rw [hf]
  show (match findTask j.tasks taskId with
    | none => Except.error RepoError.NotFound
    | some t => Except.ok t) = Except.ok t
  rw [ht]

/-- C6: for every job id present in the store, `getJob(id)` returns a Job
whose `id` field equals the queried id. -/
theorem getJob_returns_queried_id (store : List Job) (id : String)
    (h : ∃ j ∈ store, j.id = id) :
    ∃ j', getJob store id = Except.ok j' ∧ j'.id = id := by
  obtain ⟨j, hj, hid⟩ := h
  have hs : (findJob store id).isSome = true := by
    unfold findJob
    rw [List.find?_isSome]
    refine ⟨j, hj, ?_⟩
    rw [hid]
    exact beq_self_eq_true id
  obtain ⟨j', hj'⟩ := Option.isSome_iff_exists.1 hs
  refine ⟨j', ?_, findJob_id hj'⟩
  unfold getJob
  rw [hj']

/-- Witness for C6: on the task pages' seed store, `getJob "1"` returns the
seeded job "1", whose id is "1". -/
theorem getJob_returns_queried_id_witness :
    getJob initialJobs "1" = Except.ok job1 ∧ job1.id = "1" := by
  obtain ⟨j', h1, h2⟩ :=
    getJob_returns_queried_id initialJobs "1" ⟨job1, List.mem_cons_self _ _, rfl⟩
  have h0 : getJob initialJobs "1" = Except.ok job1 := rfl
  have hj : j' = job1 := Except.ok.inj (h1.symm.trans h0)
  subst hj
  exact ⟨h0, h2⟩

/-- C7: for every id absent from the store, `getJob` and `updateJob` signal
NotFound (for any patch), leaving the store untouched. -/
theorem absent_id_notFound (store : List Job) (id : String)
    (h : ∀ j ∈ store, j.id ≠ id) :
    getJob store id = Except.error RepoError.NotFound ∧
      ∀ p, updateJob store id p = (Except.error RepoError.NotFound, store) := by
  have hf : findJob store id = none := by
    unfold findJob
    rw [List.find?_eq_none]
    intro x hx hc
    exact h x hx (eq_of_beq hc)
  constructor
  · unfold getJob
    rw [hf]
  · intro p
    unfold updateJob
    rw [hf]

/-- Witness for C7: id "99" is absent from the task pages' seed store, so
`getJob` and `updateJob` (with a sample patch) signal NotFound. -/
theorem absent_id_notFound_witness :
    getJob initialJobs "99" = Except.error RepoError.NotFound ∧
      updateJob initialJobs "99" { status := some "Completed" } =
        (Except.error RepoError.NotFound, initialJobs) := by
  have h := absent_id_notFound initialJobs "99" (by decide)
  exact ⟨h.1, h.2 { status := some "Completed" }⟩

/-- C8: `getTask(jobId, taskId)` signals NotFound exactly when the job does
not exist or the job exists but contains no task with that id; in
particular `getTask "1" "9-9"` on the seeded store signals NotFound. -/
theorem getTask_notFound_iff :
    (∀ (store : List Job) (jobId taskId : String),
        getTask store jobId taskId = Except.error RepoError.NotFound ↔
          findJob store jobId = none ∨
            ∃ j, findJob store jobId = some j ∧
              findTask j.tasks taskId = none) ∧
      getTask initialJobs "1" "9-9" = Except.error RepoError.NotFound := by
  constructor
  · intro store jobId taskId
    unfold getTask
    cases hf : findJob store jobId with
    | none => simp
    | some j =>
      cases ht : findTask j.tasks taskId with
      | none => simp [ht]
      | some t => simp [ht]
  · rfl

/-- C10: the page-local stores disagree on job "3": it is present in the
seed arrays of the jobs list page and the edit-job page, while the task
pages' seed has no job "3", so their job lookup fails and every task-level
read under job "3" signals NotFound, for every task id. -/
theorem page_stores_disagree_on_job3 :
    (findJobS allJobs "3").isSome = true ∧
      (allJobs.map JobS.id).contains "3" = true ∧
      getJob initialJobs "3" = Except.error RepoError.NotFound ∧
      listTasks initialJobs "3" = Except.error RepoError.NotFound ∧
      ∀ t, getTask initialJobs "3" t = Except.error RepoError.NotFound :=
  ⟨rfl, rfl, rfl, rfl, fun _ => rfl⟩

/-- C1: a successful `updateJob` returns the updated job, and the new store
immediately reflects it: `getJob` returns it, `listJobs` contains it, and
every patched field carries the patch's value (shown here for each field of
the patch). -/
theorem updateJob_reflected (store : List Job) (id : String) (p : JobPatch)
    (j' : Job) (store' : List Job)
    (h : updateJob store id p = (Except.ok j', store')) :
    getJob store' id = Except.ok j' ∧ j' ∈ listJobs store' ∧
      (∀ s, p.jobName = some s → j'.jobName = s) ∧
      (∀ s, p.clientName = some s → j'.clientName = s) ∧
      (∀ s, p.status = some s → j'.status = s) ∧
      (∀ s, p.gateCode = some s → j'.gateCode = s) ∧
      (∀ s, p.notes = some s → j'.notes = s) := by
  unfold updateJob at h
  split at h
  next hf =>
    exact absurd (congrArg Prod.fst h) (by simp)
  next j hf =>
    by_cases hv : (jobPatchValid p) = true
    · rw [if_pos hv] at h
      have h1 : Except.ok (ε := RepoError) (applyJobPatch j p) = Except.ok j' :=
        congrArg Prod.fst h
      have happ : applyJobPatch j p = j' := Except.ok.inj h1
      have h2 : store.map (fun x => if x.id == id then applyJobPatch j p else x)
          = store' := congrArg Prod.snd h
      have hjid : j.id = id := findJob_id hf
      have hg : ∀ x : Job,
          ((if (x.id == id) = true then applyJobPatch j p else x).id == id)
            = (x.id == id) := by
        intro x
        by_cases hx : (x.id == id) = true
        · rw [if_pos hx]
          have hid : (applyJobPatch j p).id = j.id := rfl
          rw [hid, hjid, hx]
          exact beq_self_eq_true id
        · rw [if_neg hx]
      have hfind : findJob store' id = some j' := by
        rw [← h2]
        unfold findJob
        rw [find?_map_pres (fun x => if (x.id == id) = true
              then applyJobPatch j p else x)
            (fun x => x.id == id) (fun x => hg x) store]
        unfold findJob at hf
        rw [hf]
        show some (if (j.id == id) = true then applyJobPatch j p else j)
          = some j'
        rw [if_pos (by rw [hjid]; exact beq_self_eq_true id), happ]
      refine ⟨?_, ?_, ?_, ?_, ?_, ?_, ?_⟩
      · unfold getJob
        rw [hfind]
      · exact List.mem_of_find?_eq_some hfind
      · intro s hs
        rw [← happ]
        show p.jobName.getD j.jobName = s
        rw [hs]
        rfl
      · intro s hs
        rw [← happ]
        show p.clientName.getD j.clientName = s
        rw [hs]
        rfl
      · intro s hs
        rw [← happ]
        show p.status.getD j.status = s
        rw [hs]
        rfl
      · intro s hs
        rw [← happ]
        show p.gateCode.getD j.gateCode = s
        rw [hs]
        rfl
      · intro s hs
        rw [← happ]
        show p.notes.getD j.notes = s
        rw [hs]
        rfl
    · rw [if_neg hv] at h
      exact absurd (congrArg Prod.fst h) (by simp)

/-- The job returned by the C1 scenario update: job "3" with its status
patched to "Completed". -/
def job3c : Job :=
  applyJobPatch job3 { status := some "Completed" }

/-- The store produced by the C1 scenario update. -/
def seedJobs3c : List Job :=
  seedJobs3.map (fun x => if x.id == "3" then job3c else x)

/-- Witness for C1: `updateJob "3" {status := "Completed"}` on the seeded
store succeeds, and the subsequent `getJob "3"` returns a job whose status
equals "Completed". -/
theorem updateJob_reflected_witness :
    getJob seedJobs3c "3" = Except.ok job3c ∧ job3c ∈ listJobs seedJobs3c ∧
      job3c.status = "Completed" := by
  have h := updateJob_reflected seedJobs3 "3" { status := some "Completed" }
    job3c seedJobs3c rfl
  exact ⟨h.1, h.2.1, h.2.2.2.2.1 "Completed" rfl⟩

/-- C2: for a job id present in the store, `updateJob` signals
ValidationError whenever the patch would make `jobName` or `clientName`
empty or would set `status` outside the fixed enumeration; the store is
untouched and the stored job still reads back unchanged. -/
theorem updateJob_validationError (store : List Job) (id : String)
    (p : JobPatch) (j : Job) (hfind : findJob store id = some j)
    (hbad : p.jobName = some "" ∨ p.clientName = some "" ∨
      ∃ s, p.status = some s ∧ validStatuses.contains s = false) :
    updateJob store id p = (Except.error RepoError.ValidationError, store) ∧
      getJob store id = Except.ok j := by
  have hv : jobPatchValid p = false := by
    unfold jobPatchValid
    rcases hbad with hb | hb | ⟨s, hs, hmem⟩
    · rw [hb]
      simp
    · rw [hb]
      simp
    · rw [hs]
      have hred : (match some s with
          | some s => validStatuses.contains s
          | none => true) = validStatuses.contains s := rfl
      rw [hred, hmem]
      simp
  constructor
  · exact updateJob_eq_invalid hfind hv
  · unfold getJob
    rw [hfind]

/-- Witness for C2: `updateJob "1" {jobName := ""}` on the seeded store
signals ValidationError, leaves the store untouched, and job "1" still
reads back with its original jobName. -/
theorem updateJob_validationError_witness :
    updateJob initialJobs "1" { jobName := some "" } =
      (Except.error RepoError.ValidationError, initialJobs) ∧
      getJob initialJobs "1" = Except.ok job1 :=
  updateJob_validationError initialJobs "1" { jobName := some "" } job1
    rfl (Or.inl rfl)

/-- C3: validation failures reject the entire update atomically — whenever
`updateJob` or `updateTask` returns an error, the store it returns is
exactly the prior store (no field of the patch is applied). -/
theorem update_rejection_atomic :
    (∀ (store : List Job) (id : String) (p : JobPatch) (e : RepoError),
        (updateJob store id p).1 = Except.error e →
          (updateJob store id p).2 = store) ∧
      (∀ (store : List Job) (jobId taskId : String) (p : TaskPatch)
          (e : RepoError),
        (updateTask store jobId taskId p).1 = Except.error e →
          (updateTask store jobId taskId p).2 = store) := by
  constructor
  · intro store id p e h
    cases hf : findJob store id with
    | none => rw [updateJob_eq_none hf]
    | some j =>
      cases hv : jobPatchValid p with
      | false => rw [updateJob_eq_invalid hf hv]
      | true =>
        exfalso
        rw [updateJob_eq_valid hf hv] at h
        exact Except.noConfusion h
  · intro store jobId taskId p e h
    cases hf : findJob store jobId with
    | none => rw [updateTask_eq_noJob hf]
    | some j =>
      cases ht : findTask j.tasks taskId with
      | none => rw [updateTask_eq_noTask hf ht]
      | some t =>
        cases hv : taskPatchValid p with
        | false => rw [updateTask_eq_invalid hf ht hv]
        | true =>
          exfalso
          rw [updateTask_eq_valid hf ht hv] at h
          exact Except.noConfusion h

/-- Witness for C3: the invalid job patch `{jobName := ""}` and the invalid
task patch `{title := ""}` are both rejected with the store returned
exactly as it was. -/
theorem update_rejection_atomic_witness :
    (updateJob initialJobs "1" { jobName := some "" }).2 = initialJobs ∧
      (updateTask initialJobs "1" "1-2" { title := some "" }).2 =
        initialJobs :=
  ⟨update_rejection_atomic.1 initialJobs "1" { jobName := some "" }
      RepoError.ValidationError rfl,
    update_rejection_atomic.2 initialJobs "1" "1-2" { title := some "" }
      RepoError.ValidationError rfl⟩

/-- Inversion: a successful `getTask` exhibits the found job and task. -/
lemma getTask_ok_inv {store : List Job} {jobId taskId : String} {t : Task}
    (h : getTask store jobId taskId = Except.ok t) :
    ∃ j, findJob store jobId = some j ∧ findTask j.tasks taskId = some t := by
  unfold getTask at h
  split at h
  next hf => exact Except.noConfusion h
  next j hf =>
    split at h
    next ht => exact Except.noConfusion h
    next t0 ht =>
      have ht0 : t0 = t := Except.ok.inj h
      exact ⟨j, hf, ht0 ▸ ht⟩

/-- The toggle map preserves the task-lookup predicate. -/
lemma toggleTask_pred (taskId : String) :
    ∀ u : Task,
      ((if (u.id == taskId) = true
          then { u with completed := !u.completed } else u).id == taskId)
        = (u.id == taskId) := by
  intro u
  rw [toggleTask_mem_id]

/-- The job-level toggle preserves the job-lookup predicate. -/
lemma toggleJob_pred (jobId taskId : String) :
    ∀ x : Job, ((toggleJob jobId taskId x).id == jobId) = (x.id == jobId) := by
  intro x
  rw [toggleJob_id]

/-- C4: for a job id and task id present in the store, applying
`toggleCompletion` twice in succession returns the store — and with it the
task's `completed` field — to its original value. -/
theorem toggleCompletion_double (store : List Job) (jobId taskId : String)
    (t : Task) (h : getTask store jobId taskId = Except.ok t) :
    (toggleCompletion (toggleCompletion store jobId taskId).2 jobId
        taskId).2 = store := by
  obtain ⟨j, hf, ht⟩ := getTask_ok_inv h
  rw [toggleCompletion_eq_found hf ht]
  have hf2 : findJob (store.map (toggleJob jobId taskId)) jobId =
      some (toggleJob jobId taskId j) := by
    unfold findJob
    rw [find?_map_pres (toggleJob jobId taskId) (fun x => x.id == jobId)
        (fun x => toggleJob_pred jobId taskId x) store]
    unfold findJob at hf
    rw [hf]
    rfl
  have hjid : j.id = jobId := findJob_id hf
  have htog : toggleJob jobId taskId j =
      { j with tasks := toggleTask j.tasks taskId } := by
    unfold toggleJob
    rw [if_pos]
    rw [hjid]
    exact beq_self_eq_true jobId
  have ht2 : findTask (toggleJob jobId taskId j).tasks taskId =
      some (if (t.id == taskId) = true
        then { t with completed := !t.completed } else t) := by
    rw [htog]
    show findTask (toggleTask j.tasks taskId) taskId = _
    unfold findTask toggleTask
    rw [find?_map_pres
        (fun u => if (u.id == taskId) = true
          then { u with completed := !u.completed } else u)
        (fun u => u.id == taskId) (fun u => toggleTask_pred taskId u) j.tasks]
    unfold findTask at ht
    rw [ht]
    rfl
  rw [toggleCompletion_eq_found hf2 ht2, List.map_map]
  apply List.map_id''
  intro x
  show toggleJob jobId taskId (toggleJob jobId taskId x) = x
  exact toggleJob_involutive jobId taskId x

/-- Witness for C4: toggling task "1-2" of job "1" twice on the seeded
store restores the store exactly. -/
theorem toggleCompletion_double_witness :
    (toggleCompletion (toggleCompletion initialJobs "1" "1-2").2 "1"
        "1-2").2 = initialJobs :=
  toggleCompletion_double initialJobs "1" "1-2" task12 rfl

/-- Frame relation on tasks: everything except possibly the `completed`
flag of the task with the given id is unchanged. -/
def taskFrame (taskId : String) (u u' : Task) : Prop :=
  u'.id = u.id ∧ u'.title = u.title ∧ u'.description = u.description ∧
    u'.dueDate = u.dueDate ∧ u'.notes = u.notes ∧
    (u.id ≠ taskId → u'.completed = u.completed)

/-- Frame relation on jobs: every job-level field is unchanged, a job with
a different id keeps its task list verbatim, and the matching job's tasks
are related pointwise (same order and count) by the task frame. -/
def jobFrame (jobId taskId : String) (x x' : Job) : Prop :=
  x'.id = x.id ∧ x'.jobName = x.jobName ∧ x'.clientName = x.clientName ∧
    x'.status = x.status ∧ x'.gateCode = x.gateCode ∧ x'.notes = x.notes ∧
    (x.id ≠ jobId → x'.tasks = x.tasks) ∧
    List.Forall₂ (taskFrame taskId) x.tasks x'.tasks

/-- The task frame is reflexive. -/
lemma taskFrame_refl (taskId : String) (u : Task) : taskFrame taskId u u :=
  ⟨rfl, rfl, rfl, rfl, rfl, fun _ => rfl⟩

/-- The job frame is reflexive. -/
lemma jobFrame_refl (jobId taskId : String) (x : Job) :
    jobFrame jobId taskId x x :=
  ⟨rfl, rfl, rfl, rfl, rfl, rfl, fun _ => rfl,
    List.forall₂_same.2 fun u _ => taskFrame_refl taskId u⟩

/-- The job-level toggle respects the frame relation. -/
lemma jobFrame_toggleJob (jobId taskId : String) (x : Job) :
    jobFrame jobId taskId x (toggleJob jobId taskId x) := by
  unfold toggleJob
  by_cases hx : (x.id == jobId) = true
  · rw [if_pos hx]
    refine ⟨rfl, rfl, rfl, rfl, rfl, rfl, ?_, ?_⟩
    · intro hne
      exact absurd (eq_of_beq hx) hne
    · show List.Forall₂ (taskFrame taskId) x.tasks (toggleTask x.tasks taskId)
      unfold toggleTask
      rw [List.forall₂_map_right_iff]
      refine List.forall₂_same.2 fun u _ => ?_
      show taskFrame taskId u (if (u.id == taskId) = true
        then { u with completed := !u.completed } else u)
      by_cases hu : (u.id == taskId) = true
      · rw [if_pos hu]
        exact ⟨rfl, rfl, rfl, rfl, rfl,
          fun hne => absurd (eq_of_beq hu) hne⟩
      · rw [if_neg hu]
        exact taskFrame_refl taskId u
  · rw [if_neg hx]
    exact jobFrame_refl jobId taskId x

/-- C9: `toggleCompletion` changes at most the `completed` field of the
task with the given id — every other task, the tasks' order and count, and
every other job field are unchanged (the store is framed pointwise); and on
the §8 scenario store, toggling task "1-2" of job "1" makes it completed
while task "1-1" stays completed, so `listTasks "1"` returns both tasks
with `completed := true`. -/
theorem toggleCompletion_frame :
    (∀ (store : List Job) (jobId taskId : String),
        List.Forall₂ (jobFrame jobId taskId) store
          (toggleCompletion store jobId taskId).2) ∧
      listTasks (toggleCompletion scenarioJobs "1" "1-2").2 "1" =
        Except.ok
          [ { id := "1-1", title := "Excavation",
              description := "Test pH, chlorine, and alkalinity levels",
              completed := true, dueDate := "2025-06-04", notes := "" },
            { id := "1-2", title := "Steel", description := "Jaime Steel",
              completed := true, dueDate := "2025-06-16", notes := "" } ] := by
  constructor
  · intro store jobId taskId
    cases hf : findJob store jobId with
    | none =>
      rw [toggleCompletion_eq_noJob hf]
      exact List.forall₂_same.2 fun x _ => jobFrame_refl jobId taskId x
    | some j =>
      cases ht : findTask j.tasks taskId with
      | none =>
        rw [toggleCompletion_eq_noTask hf ht]
        exact List.forall₂_same.2 fun x _ => jobFrame_refl jobId taskId x
      | some t =>
        rw [toggleCompletion_eq_found hf ht]
        show List.Forall₂ (jobFrame jobId taskId) store
          (store.map (toggleJob jobId taskId))
        rw [List.forall₂_map_right_iff]
        exact List.forall₂_same.2 fun x _ => jobFrame_toggleJob jobId taskId x
  · rfl

/-- Modelled from the spec: the `completed` flag of the addressed task
before the call — the "current" of §4.2's `completed: !current`; false when
the task is absent (in which case both operations fail identically for any
patch). -/
def currentCompleted (store : List Job) (jobId taskId : String) : Bool :=
  match getTask store jobId taskId with
  | Except.ok t => t.completed
  | Except.error _ => false

/-- C5: under the spec's uniqueness invariants (§3), `toggleCompletion`
returns exactly the same result and store as `updateTask` with
`{completed := !current}`, and it never signals ValidationError. -/
theorem toggleCompletion_refines_updateTask (store : List Job)
    (jobId taskId : String) (hjobs : (store.map Job.id).Nodup)
    (htasks : ∀ j ∈ store, (j.tasks.map Task.id).Nodup) :
    toggleCompletion store jobId taskId =
      updateTask store jobId taskId
        { completed := some (!currentCompleted store jobId taskId) } ∧
      (toggleCompletion store jobId taskId).1 ≠
        Except.error RepoError.ValidationError := by
  cases hf : findJob store jobId with
  | none =>
    rw [toggleCompletion_eq_noJob hf, updateTask_eq_noJob hf]
    exact ⟨rfl, fun hc => RepoError.noConfusion (Except.error.inj hc)⟩
  | some j =>
    cases ht : findTask j.tasks taskId with
    | none =>
      rw [toggleCompletion_eq_noTask hf ht, updateTask_eq_noTask hf ht]
      exact ⟨rfl, fun hc => RepoError.noConfusion (Except.error.inj hc)⟩
    | some t =>
      have hcur : currentCompleted store jobId taskId = t.completed := by
        unfold currentCompleted
        rw [getTask_eq_found hf ht]
      rw [hcur]
      have hv : taskPatchValid { completed := some (!t.completed) } = true :=
        rfl
      rw [toggleCompletion_eq_found hf ht, updateTask_eq_valid hf ht hv]
      have hjmem : j ∈ store := by
        unfold findJob at hf
        exact List.mem_of_find?_eq_some hf
      have htmem : t ∈ j.tasks := by
        unfold findTask at ht
        exact List.mem_of_find?_eq_some ht
      constructor
      · have hmap : store.map (toggleJob jobId taskId) =
            store.map
              (updateTaskIn jobId taskId { completed := some (!t.completed) }) := by
          apply List.map_congr_left
          intro x hxmem
          unfold toggleJob updateTaskIn
          by_cases hx : (x.id == jobId) = true
          · rw [if_pos hx, if_pos hx]
            have hxj : x = j :=
              List.inj_on_of_nodup_map hjobs hxmem hjmem
                ((eq_of_beq hx).trans (findJob_id hf).symm)
            have htasks_eq : toggleTask x.tasks taskId =
                x.tasks.map (fun u => if u.id == taskId
                  then applyTaskPatch u { completed := some (!t.completed) }
                  else u) := by
              unfold toggleTask
              apply List.map_congr_left
              intro u humem
              by_cases hu : (u.id == taskId) = true
              · rw [if_pos hu, if_pos hu]
                have hut : u = t := by
                  apply List.inj_on_of_nodup_map (htasks j hjmem)
                  · rw [← hxj]
                    exact humem
                  · exact htmem
                  · exact (eq_of_beq hu).trans (findTask_id ht).symm
                rw [hut]
                rfl
              · rw [if_neg hu, if_neg hu]
            rw [htasks_eq]
          · rw [if_neg hx, if_neg hx]
        rw [hmap]
        rfl
      · intro hc
        exact Except.noConfusion hc

/-- Witness for C5: on the seeded store (whose job ids and per-job task ids
are duplicate-free), toggling task "1-2" of job "1" coincides with the
corresponding `updateTask` call and does not signal ValidationError. -/
theorem toggleCompletion_refines_updateTask_witness :
    toggleCompletion initialJobs "1" "1-2" =
      updateTask initialJobs "1" "1-2"
        { completed := some (!currentCompleted initialJobs "1" "1-2") } ∧
      (toggleCompletion initialJobs "1" "1-2").1 ≠
        Except.error RepoError.ValidationError :=
  toggleCompletion_refines_updateTask initialJobs "1" "1-2" (by decide)
    (by decide)

end AthenaPools
